import Mathlib

/-!
Verification of the gststructure TypeScript parser/serializer.

Shallow embedding of the core of the repository:
  * `_parser.ts` (cursor, lexers, value/structure/caps grammar, type
    inference, explicit-type coercion table),
  * `serializer.ts` (valueToString / structureToString / capsToString),
  * `parser.ts` (throwing and non-throwing entry points).

Conventions of the embedding:
  * The cursor is represented by the remaining input (`List Char`); a
    parse error carries the remaining input at the failure point, which
    (together with the original input) determines the source position
    `pos = input.length - remaining.length` carried by `ParseError`.
  * JavaScript numbers are modelled exactly: `JSNum` is either NaN, a
    signed infinity, or an exact rational.  Binary64 rounding is not
    modelled; none of the properties proved below depend on rounding
    (all numeric literals involved are exactly representable).
  * JavaScript `BigInt` is modelled by `Int`.
  * Fallible code returns `Except ParseErr`; the `try/catch` blocks of
    the source become `Option`-valued helpers.
  * Recursion through the mutually recursive grammar is fuel-indexed;
    entry points supply fuel that dominates the call depth for every
    input actually evaluated (the source recursion is bounded by input
    nesting depth).
-/

-- ---------------------------------------------------------------------------
-- JavaScript numbers
-- ---------------------------------------------------------------------------

/-- A JavaScript number: NaN, ±Infinity, or an exact finite value written
`m * 10^e`.  Every finite number this program manipulates comes from a
decimal literal (and every actual JS double is a dyadic rational, hence
exactly a finite decimal), so this representation is exact; binary64
rounding is not modelled and no property below depends on it.  Finite
values are kept canonical (`10 ∤ m`, and `0` is `num 0 0`) by building
them only through `mkDec`, so structural equality is value equality. -/
inductive JSNum where
  | nan : JSNum
  | inf (negative : Bool) : JSNum
  | num (m : ℤ) (e : ℤ) : JSNum
deriving DecidableEq, Repr

/-- Strip all factors `p` from `n` (first argument is fuel). -/
def stripFactor (p : ℕ) : ℕ → ℕ → ℕ × ℕ
  | 0, n => (0, n)
  | f + 1, n =>
    if 2 ≤ p && n % p = 0 && n ≠ 0 then
      let (e, r) := stripFactor p f (n / p)
      (e + 1, r)
    else (0, n)

/-- Canonical finite JS number `m * 10^e`. -/
def mkDec (m e : ℤ) : JSNum :=
  if m = 0 then .num 0 0
  else
    let (t, r) := stripFactor 10 m.natAbs m.natAbs
    .num ((if m < 0 then -1 else 1) * (r : ℤ)) (e + t)

/-- The integer JS number `n`. -/
def jsn (n : ℤ) : JSNum := mkDec n 0

/-- Math.trunc (truncation toward zero). -/
def jsTrunc : JSNum → JSNum
  | .nan => .nan
  | .inf b => .inf b
  | .num m e =>
    if 0 ≤ e then .num m e
    else mkDec ((if m < 0 then -1 else 1) * (m.natAbs / 10 ^ (-e).toNat : ℕ)) 0

-- ---------------------------------------------------------------------------
-- Character classes (hand-compiled from the source regexes)
-- ---------------------------------------------------------------------------

def isAsciiAlpha (c : Char) : Bool :=
  ('a' ≤ c && c ≤ 'z') || ('A' ≤ c && c ≤ 'Z')

def isDigitC (c : Char) : Bool := '0' ≤ c && c ≤ '9'

def isHexDigitC (c : Char) : Bool :=
  isDigitC c || ('a' ≤ c && c ≤ 'f') || ('A' ≤ c && c ≤ 'F')

/-- First character of a structure/caps name: `[a-zA-Z_]`. -/
def isNameStart (c : Char) : Bool := isAsciiAlpha c || c = '_'

/-- Subsequent name characters: `[a-zA-Z0-9\-_.:/]`. -/
def isNameCont (c : Char) : Bool :=
  isAsciiAlpha c || isDigitC c || c = '-' || c = '_' || c = '.' || c = ':' || c = '/'

/-- Field-name characters: `[a-zA-Z0-9\-_]` (plus `::` and `.` handled by the scanner). -/
def isFieldNameChar (c : Char) : Bool :=
  isAsciiAlpha c || isDigitC c || c = '-' || c = '_'

/-- Type-name characters: `[a-zA-Z0-9_]`. -/
def isTypeNameChar (c : Char) : Bool := isAsciiAlpha c || isDigitC c || c = '_'

/-- Caps feature-name characters: `[a-zA-Z0-9:_-]`. -/
def isFeatureChar (c : Char) : Bool :=
  isAsciiAlpha c || isDigitC c || c = ':' || c = '_' || c = '-'

/-- Flags identifier start: `[a-zA-Z_]`. -/
def isFlagStart (c : Char) : Bool := isAsciiAlpha c || c = '_'

/-- Flags identifier continuation: `[a-zA-Z0-9_-]`. -/
def isFlagCont (c : Char) : Bool :=
  isAsciiAlpha c || isDigitC c || c = '_' || c = '-'

/-- ASCII lower-casing, as `String.prototype.toLowerCase` acts on ASCII input. -/
def asciiLowerChar (c : Char) : Char :=
  if 'A' ≤ c && c ≤ 'Z' then Char.ofNat (c.toNat + 32) else c

def asciiLower (s : String) : String := String.mk (s.data.map asciiLowerChar)

def digitVal (c : Char) : ℕ := c.toNat - '0'.toNat

def hexDigitVal (c : Char) : ℕ :=
  if isDigitC c then c.toNat - '0'.toNat
  else if 'a' ≤ c && c ≤ 'f' then c.toNat - 'a'.toNat + 10
  else c.toNat - 'A'.toNat + 10

/-- Value of a list of decimal digits. -/
def decDigitsVal (l : List Char) : ℕ := l.foldl (fun acc c => acc * 10 + digitVal c) 0

/-- Value of a list of hexadecimal digits. -/
def hexDigitsVal (l : List Char) : ℕ := l.foldl (fun acc c => acc * 16 + hexDigitVal c) 0

-- ---------------------------------------------------------------------------
-- Data model (`types.ts`)
-- ---------------------------------------------------------------------------

mutual
/-- The closed tagged union of GStreamer values (`Value` in `types.ts`). -/
inductive ValueT where
  | int (value : JSNum) : ValueT
  | double (value : JSNum) : ValueT
  | str (value : String) : ValueT
  | boolean (value : Bool) : ValueT
  | fraction (numerator denominator : JSNum) : ValueT
  | bitmask (value : ℤ) : ValueT
  | flags (flags : List String) : ValueT
  | list (items : List ValueT) : ValueT
  | array (items : List ValueT) : ValueT
  | range (min max : ValueT) (step : Option ValueT) : ValueT
  | structure (value : StructureT) : ValueT
  | caps (value : CapsT) : ValueT
  | typed (typeName : String) (value : ValueT) : ValueT

/-- A GstStructure: name plus ordered field map (`Structure` in `types.ts`).
The `Map<string, Value>` is embedded as an insertion-ordered association
list; `mapSet` below implements JavaScript `Map.prototype.set`. -/
inductive StructureT where
  | mk (name : String) (fields : List (String × ValueT)) : StructureT

/-- One caps entry: structure plus capability features (`CapsEntry`). -/
inductive CapsEntryT where
  | mk (struct : StructureT) (features : List String) : CapsEntryT

/-- GstCaps (`Caps` in `types.ts`). -/
inductive CapsT where
  | any : CapsT
  | empty : CapsT
  | structures (entries : List CapsEntryT) : CapsT
end

def StructureT.name : StructureT → String
  | .mk n _ => n

def StructureT.fields : StructureT → List (String × ValueT)
  | .mk _ f => f

def CapsEntryT.struct : CapsEntryT → StructureT
  | .mk s _ => s

def CapsEntryT.features : CapsEntryT → List String
  | .mk _ f => f

/-- JavaScript `Map.prototype.set`: replace the value in place when the key
is already present (keeping its insertion position), otherwise append. -/
def mapSet (m : List (String × ValueT)) (k : String) (v : ValueT) :
    List (String × ValueT) :=
  if m.any (fun p => p.1 = k) then
    m.map (fun p => if p.1 = k then (k, v) else p)
  else
    m ++ [(k, v)]

/-- JavaScript `Map.prototype.get`. -/
def mapGet (m : List (String × ValueT)) (k : String) : Option ValueT :=
  match m.find? (fun p => p.1 = k) with
  | some p => some p.2
  | none => none

-- ---------------------------------------------------------------------------
-- Number rendering (JavaScript `String(number)` / `Number.prototype.toString`)
-- ---------------------------------------------------------------------------

def natDec (n : ℕ) : String := Nat.repr n

def intDec (i : ℤ) : String :=
  (if i < 0 then "-" else "") ++ natDec i.natAbs

/-- JavaScript number-to-string.  For the finite decimals this program
manipulates, JavaScript prints the minimal exact decimal expansion,
reproduced here from the canonical `m * 10^e` form.  Exponent notation
(used by JS only for magnitudes ≥ 1e21 or < 1e-6) is not modelled; no
property below evaluates this function in that regime. -/
def jsNumToString : JSNum → String
  | .nan => "NaN"
  | .inf b => if b then "-Infinity" else "Infinity"
  | .num m e =>
    if 0 ≤ e then intDec (m * 10 ^ e.toNat)
    else
      let k := (-e).toNat
      let ip := m.natAbs / 10 ^ k
      let fp := m.natAbs % 10 ^ k
      let fs := natDec fp
      let fpad := String.mk (List.replicate (k - fs.length) '0') ++ fs
      (if m < 0 then "-" else "") ++ natDec ip ++ "." ++ fpad

/-- BigInt.prototype.toString(16): lowercase hex digits, sign in front. -/
def bigIntHex (i : ℤ) : String :=
  (if i < 0 then "-" else "") ++ String.mk (Nat.toDigits 16 i.natAbs)

-- ---------------------------------------------------------------------------
-- Serializer (`serializer.ts`)
-- ---------------------------------------------------------------------------

/-- One character of `escapeString`.  The source applies sequential
`replace` calls (backslash first, then quote, \n, \t, \r); doing the
backslash first makes that equal to this single character-wise pass. -/
def escapeChar (c : Char) : String :=
  if c = '\\' then "\\\\"
  else if c = '"' then "\\\""
  else if c = '\n' then "\\n"
  else if c = '\t' then "\\t"
  else if c = '\r' then "\\r"
  else String.mk [c]

def escapeString (s : String) : String := String.join (s.data.map escapeChar)

def strContains (s : String) (c : Char) : Bool := s.data.contains c

mutual

/-- `valueToString` from `serializer.ts`. -/
def valueToString : ValueT → String
  | .int v => "(int)" ++ jsNumToString v
  | .double v =>
    let s := jsNumToString v
    "(double)" ++ (if strContains s '.' || strContains s 'e' then s else s ++ ".0")
  | .str v => "\"" ++ escapeString v ++ "\""
  | .boolean v => "(boolean)" ++ (if v then "true" else "false")
  | .fraction n d => "(fraction)" ++ jsNumToString n ++ "/" ++ jsNumToString d
  | .bitmask v => "(bitmask)0x" ++ bigIntHex v
  | .flags fs => String.intercalate "+" fs
  | .list items => "\x7b " ++ String.intercalate ", " (valueStrings items) ++ " \x7d"
  | .array items => "< " ++ String.intercalate ", " (valueStrings items) ++ " >"
  | .range mn mx st =>
    match st with
    | some s =>
      "[ " ++ valueToString mn ++ ", " ++ valueToString mx ++ ", " ++ valueToString s ++ " ]"
    | none => "[ " ++ valueToString mn ++ ", " ++ valueToString mx ++ " ]"
  | .structure s => "(GstStructure)\"" ++ escapeString (structureToString s) ++ ";\""
  | .caps c => "(GstCaps)\"" ++ escapeString (capsToString c) ++ "\""
  | .typed tn v => "(" ++ tn ++ ")" ++ valueToString v

/-- `items.map(valueToString)`. -/
def valueStrings : List ValueT → List String
  | [] => []
  | v :: vs => valueToString v :: valueStrings vs

/-- `structureToString` from `serializer.ts`: the name followed by
`key=value` parts, joined with `", "`. -/
def structureToString : StructureT → String
  | .mk name fields => String.intercalate ", " (name :: fieldStrings fields)

def fieldStrings : List (String × ValueT) → List String
  | [] => []
  | (k, v) :: rest => (k ++ "=" ++ valueToString v) :: fieldStrings rest

/-- `capsToString` from `serializer.ts`. -/
def capsToString : CapsT → String
  | .any => "ANY"
  | .empty => "EMPTY"
  | .structures entries => String.intercalate "; " (capsEntryStrings entries)

def capsEntryStrings : List CapsEntryT → List String
  | [] => []
  | .mk (.mk name flds) feats :: rest =>
    (name
      ++ (if feats.length > 0 then "(" ++ String.intercalate ", " feats ++ ")" else "")
      ++ capsFieldsConcat flds) :: capsEntryStrings rest

/-- The field loop of `capsToString`: each field appended as `, key=value`. -/
def capsFieldsConcat : List (String × ValueT) → String
  | [] => ""
  | (k, v) :: rest => ", " ++ k ++ "=" ++ valueToString v ++ capsFieldsConcat rest

end

-- ---------------------------------------------------------------------------
-- JavaScript string-to-number conversions
-- ---------------------------------------------------------------------------

/-- JavaScript whitespace recognized by parseInt/parseFloat/BigInt/trim
(ASCII part). -/
def jsWS (c : Char) : Bool :=
  c = ' ' || c = '\t' || c = '\n' || c = '\r' || c = '\x0b' || c = '\x0c'

/-- Shared helper: optional leading sign.  Returns (negative, rest). -/
def stripSign : List Char → Bool × List Char
  | '-' :: r => (true, r)
  | '+' :: r => (false, r)
  | l => (false, l)

/-- Boolean string-prefix test (JavaScript `String.prototype.startsWith`). -/
def startsWithL : List Char → List Char → Bool
  | [], _ => true
  | _ :: _, [] => false
  | p :: ps, c :: cs => p = c && startsWithL ps cs

/-- `parseInt(s, 10)`. -/
def jsParseIntDec (s : String) : JSNum :=
  let l := s.data.dropWhile jsWS
  let (neg, r) := stripSign l
  let ds := r.takeWhile isDigitC
  if ds = [] then .nan
  else jsn ((if neg then -1 else 1) * (decDigitsVal ds : ℤ))

/-- `parseInt(s, 16)`: optional `0x`/`0X` prefix, then a hex-digit prefix. -/
def jsParseIntHex (s : String) : JSNum :=
  let l := s.data.dropWhile jsWS
  let (neg, r) := stripSign l
  let r2 := match r with
    | '0' :: x :: rest => if x = 'x' || x = 'X' then rest else r
    | _ => r
  let ds := r2.takeWhile isHexDigitC
  if ds = [] then .nan
  else jsn ((if neg then -1 else 1) * (hexDigitsVal ds : ℤ))

/-- `parseFloat(s)`: longest valid decimal-literal prefix ("Infinity"
accepted; an incomplete exponent is not consumed). -/
def jsParseFloat (s : String) : JSNum :=
  let l := s.data.dropWhile jsWS
  let (neg, r) := stripSign l
  if startsWithL ('I' :: 'n' :: 'f' :: 'i' :: 'n' :: 'i' :: 't' :: 'y' :: []) r then
    .inf neg
  else
    let ip := r.takeWhile isDigitC
    let r1 := r.dropWhile isDigitC
    let (fp, r2) := match r1 with
      | '.' :: rest => (rest.takeWhile isDigitC, rest.dropWhile isDigitC)
      | _ => ([], r1)
    if ip = [] && fp = [] then .nan
    else
      let expv : ℤ := match r2 with
        | e :: rest =>
          if e = 'e' || e = 'E' then
            let (eneg, r3) := stripSign rest
            let ed := r3.takeWhile isDigitC
            if ed = [] then 0 else (if eneg then -1 else 1) * (decDigitsVal ed : ℤ)
          else 0
        | [] => 0
      mkDec ((if neg then -1 else 1)
          * ((decDigitsVal ip * 10 ^ fp.length + decDigitsVal fp : ℕ) : ℤ))
        (expv - fp.length)

def isOctDigitC (c : Char) : Bool := '0' ≤ c && c ≤ '7'
def isBinDigitC (c : Char) : Bool := c = '0' || c = '1'
def octDigitsVal (l : List Char) : ℕ := l.foldl (fun acc c => acc * 8 + digitVal c) 0
def binDigitsVal (l : List Char) : ℕ := l.foldl (fun acc c => acc * 2 + digitVal c) 0

/-- `BigInt(s)` for strings: whole-string integer literal after trimming;
empty means 0; `0x`/`0o`/`0b` prefixes allowed without sign; otherwise an
optionally signed decimal literal; `none` models the thrown SyntaxError. -/
def jsBigInt (s : String) : Option ℤ :=
  let l := (s.data.dropWhile jsWS).reverse.dropWhile jsWS |>.reverse
  let dec : List Char → Option ℤ := fun l =>
    let (neg, r) := stripSign l
    if r ≠ [] && r.all isDigitC then
      some ((if neg then -1 else 1) * (decDigitsVal r : ℤ))
    else none
  match l with
  | [] => some 0
  | '0' :: x :: rest =>
    if x = 'x' || x = 'X' then
      if rest ≠ [] && rest.all isHexDigitC then some (hexDigitsVal rest) else none
    else if x = 'o' || x = 'O' then
      if rest ≠ [] && rest.all isOctDigitC then some (octDigitsVal rest) else none
    else if x = 'b' || x = 'B' then
      if rest ≠ [] && rest.all isBinDigitC then some (binDigitsVal rest) else none
    else dec ('0' :: x :: rest)
  | _ => dec l

-- ---------------------------------------------------------------------------
-- Type inference (`inferType` in `_parser.ts`)
-- ---------------------------------------------------------------------------

/-- `/^0x[0-9a-fA-F]+$/i` (the `i` flag also allows `0X`). -/
def matchHexLit (l : List Char) : Bool :=
  match l with
  | '0' :: x :: rest => (x = 'x' || x = 'X') && rest ≠ [] && rest.all isHexDigitC
  | _ => false

/-- `/^[+-]?[0-9]+$/`. -/
def matchIntLit (l : List Char) : Bool :=
  let (_, d) := stripSign l
  d ≠ [] && d.all isDigitC

/-- `[eE][+-]?[0-9]+` anchored to the end, or nothing. -/
def matchExpTail (l : List Char) : Bool :=
  match l with
  | [] => true
  | e :: rest =>
    (e = 'e' || e = 'E') &&
      (let (_, d) := stripSign rest
       d ≠ [] && d.all isDigitC)

/-- `/^[+-]?(?:[0-9]+\.[0-9]*|\.[0-9]+)(?:[eE][+-]?[0-9]+)?$/`. -/
def matchFloatDot (l : List Char) : Bool :=
  let (_, r) := stripSign l
  let ip := r.takeWhile isDigitC
  match r.dropWhile isDigitC with
  | '.' :: rest =>
    let fp := rest.takeWhile isDigitC
    (ip ≠ [] || fp ≠ []) && matchExpTail (rest.dropWhile isDigitC)
  | _ => false

/-- `/^[+-]?[0-9]+[eE][+-]?[0-9]+$/`. -/
def matchFloatExp (l : List Char) : Bool :=
  let (_, r) := stripSign l
  let ip := r.takeWhile isDigitC
  ip ≠ [] &&
    (match r.dropWhile isDigitC with
     | e :: rest =>
       (e = 'e' || e = 'E') &&
         (let (_, d) := stripSign rest
          d ≠ [] && d.all isDigitC)
     | [] => false)

/-- `raw.match(/^([0-9]+)\/([0-9]+)$/)`: both digit groups, no sign. -/
def matchFrac (l : List Char) : Option (ℕ × ℕ) :=
  let d1 := l.takeWhile isDigitC
  match l.dropWhile isDigitC with
  | '/' :: d2 =>
    if d1 ≠ [] && d2 ≠ [] && d2.all isDigitC then
      some (decDigitsVal d1, decDigitsVal d2)
    else none
  | _ => none

/-- One flags identifier: `[a-zA-Z_][a-zA-Z0-9_-]*`. -/
def matchFlagIdent (l : List Char) : Bool :=
  match l with
  | c :: rest => isFlagStart c && rest.all isFlagCont
  | [] => false

/-- `raw.split('+')`, implemented structurally. -/
def splitPlus : List Char → List (List Char)
  | [] => [] :: []
  | '+' :: rest => [] :: splitPlus rest
  | c :: rest =>
    match splitPlus rest with
    | p :: ps => (c :: p) :: ps
    | [] => (c :: []) :: []

/-- `/^[a-zA-Z_][a-zA-Z0-9_-]*(\+[a-zA-Z_][a-zA-Z0-9_-]*)+$/` expressed on
the `'+'`-separated pieces (an identifier cannot contain `'+'`, so the
regex matches exactly when there are at least two pieces, all identifiers). -/
def matchFlags (l : List Char) : Bool :=
  let ps := splitPlus l
  ps.length ≥ 2 && ps.all matchFlagIdent

/-- `inferType` from `_parser.ts`: the inference cascade for an unquoted
token, rules tried strictly in order, first match wins. -/
def inferType (raw : String) : ValueT :=
  let l := raw.data
  if matchHexLit l then
    .int (jsn (hexDigitsVal (l.drop 2) : ℕ))           -- Number(raw)
  else if matchIntLit l then
    let (neg, d) := stripSign l
    .int (jsn ((if neg then -1 else 1) * (decDigitsVal d : ℤ)))  -- parseInt(raw, 10)
  else if matchFloatDot l || matchFloatExp l then
    .double (jsParseFloat raw)                          -- parseFloat(raw)
  else
    match matchFrac l with
    | some (n, d) => .fraction (jsn n) (jsn d)
    | none =>
      if l.contains '+' && matchFlags l then
        .flags ((splitPlus l).map String.mk)            -- raw.split('+')
      else
        let low := asciiLower raw
        if low = "true" || low = "false" || low = "yes" || low = "no"
            || low = "t" || low = "f" then
          .boolean (low = "true" || low = "yes" || low = "t")
        else
          .str raw

-- ---------------------------------------------------------------------------
-- Error model (`ParseError` in `_parser.ts`)
-- ---------------------------------------------------------------------------

/-- A parse failure.  The source's `ParseError` carries the failure
position; here the remaining input at the failure point is carried, which
determines that position as `input.length - remaining.length`. -/
structure ParseErr where
  msg : String
  remaining : List Char
deriving Repr

def errB {α : Type} : Except ParseErr α → Bool
  | .error _ => true
  | .ok _ => false

-- ---------------------------------------------------------------------------
-- Coercion table, scalar coercions (`coerceInt` … in `_parser.ts`)
-- ---------------------------------------------------------------------------

def strStarts0x (s : String) : Bool :=
  match s.data with
  | '0' :: x :: _ => x = 'x' || x = 'X'
  | _ => false

/-- `coerceInt`. -/
def coerceInt : ValueT → ValueT
  | .double v => .int (jsTrunc v)
  | .boolean b => .int (jsn (if b then 1 else 0))
  | .str s => .int (if strStarts0x s then jsParseIntHex s else jsParseIntDec s)
  | v => v

/-- `coerceDouble`. -/
def coerceDouble : ValueT → ValueT
  | .int v => .double v
  | .str s => .double (jsParseFloat s)
  | v => v

/-- `v.value !== 0` for a JS number. -/
def jsNumNotZero : JSNum → Bool
  | .nan => true
  | .inf _ => true
  | .num m _ => m ≠ 0

/-- `coerceBool`. -/
def coerceBool : ValueT → ValueT
  | .int v => .boolean (jsNumNotZero v)
  | .str s =>
    let low := asciiLower s
    .boolean (low = "true" || low = "yes" || low = "t" || low = "1")
  | v => v

/-- `coerceString`. -/
def coerceString : ValueT → ValueT
  | .int v => .str (jsNumToString v)
  | .double v => .str (jsNumToString v)
  | .boolean b => .str (if b then "true" else "false")
  | v => v

/-- `coerceBitmask`.  The string case sits in a `try/catch` that returns
the raw value on a throw; `BigInt(v.value)` in the int case is *not*
guarded, so a non-integer numeric payload would propagate an error. -/
def coerceBitmask : ValueT → Except ParseErr ValueT
  | .bitmask v => .ok (.bitmask v)
  | .int v =>
    match v with
    | .num m e =>
      if 0 ≤ e then .ok (.bitmask (m * 10 ^ e.toNat))
      else .error ⟨"BigInt of non-integer", []⟩
    | _ => .error ⟨"BigInt of non-finite", []⟩
  | .str s =>
    match jsBigInt s with
    | some n => .ok (.bitmask n)
    | none => .ok (.str s)
  | v => .ok v

def intAliases : List String :=
  ["int", "gint", "uint", "guint", "gint8", "gint16", "gint32", "gint64",
   "guint8", "guint16", "guint32", "guint64", "int64", "uint64"]

def doubleAliases : List String := ["double", "gdouble", "float", "gfloat"]

def boolAliases : List String := ["boolean", "gboolean", "bool"]

def stringAliases : List String := ["string", "gchararray"]

def bitmaskAliases : List String := ["bitmask", "gstbitmask"]

def fractionAliases : List String := ["fraction", "gstfraction"]

def capsAliases : List String := ["gstcaps", "caps"]

-- ---------------------------------------------------------------------------
-- Lexers (cursor scanners from `_parser.ts`)
-- ---------------------------------------------------------------------------

/-- `skipWS`: ASCII whitespace and backslash-newline continuations
(a continuation consumes the backslash and the newline, plus one further
`\n` so that `\r\n` counts as one continuation). -/
def skipWSL : List Char → List Char
  | [] => []
  | '\\' :: '\n' :: '\n' :: rest => skipWSL rest
  | '\\' :: '\n' :: rest => skipWSL rest
  | '\\' :: '\r' :: '\n' :: rest => skipWSL rest
  | '\\' :: '\r' :: rest => skipWSL rest
  | c :: rest =>
    if c = ' ' || c = '\t' || c = '\r' || c = '\n' then skipWSL rest
    else c :: rest

/-- `expect(s)` for a single-character literal. -/
def expectC (c : Char) (l : List Char) : Except ParseErr (List Char) :=
  match l with
  | c2 :: rest => if c2 = c then .ok rest else .error ⟨"Expected literal", l⟩
  | [] => .error ⟨"Expected literal", []⟩

def headIs (l : List Char) (c : Char) : Bool :=
  match l with
  | c2 :: _ => c2 = c
  | [] => false

/-- `parseName`: `[a-zA-Z_]` start, then `[a-zA-Z0-9\-_.:/]*`. -/
def parseNameL (l : List Char) : Except ParseErr (String × List Char) :=
  match l with
  | c :: _ =>
    if isNameStart c then
      .ok (String.mk (l.takeWhile isNameCont), l.dropWhile isNameCont)
    else .error ⟨"Expected name starting with a letter", l⟩
  | [] => .error ⟨"Expected name starting with a letter", []⟩

/-- The character loop of `parseFieldName`: `[a-zA-Z0-9\-_]`, the
two-character sequence `::`, and `.`. -/
def fieldNameScan : List Char → List Char × List Char
  | [] => ([], [])
  | c :: rest =>
    if isFieldNameChar c then
      let (t, r) := fieldNameScan rest
      (c :: t, r)
    else if c = ':' then
      match rest with
      | ':' :: rest2 =>
        let (t, r) := fieldNameScan rest2
        (':' :: ':' :: t, r)
      | _ => ([], c :: rest)
    else if c = '.' then
      let (t, r) := fieldNameScan rest
      (c :: t, r)
    else ([], c :: rest)

/-- `parseFieldName`: fails when zero characters were consumed. -/
def parseFieldNameL (l : List Char) : Except ParseErr (String × List Char) :=
  let (t, r) := fieldNameScan l
  if t = [] then .error ⟨"Expected field name", l⟩ else .ok (String.mk t, r)

/-- `parseTypeName`: `[a-zA-Z0-9_]*`, possibly empty. -/
def parseTypeNameL (l : List Char) : String × List Char :=
  (String.mk (l.takeWhile isTypeNameChar), l.dropWhile isTypeNameChar)

/-- `parseQuotedString` body: decode the fixed escape table; any other
escaped character keeps its backslash.  A lone trailing backslash is
appended verbatim and then the closing-quote expectation fails. -/
def quotedBody : List Char → Except ParseErr (List Char × List Char)
  | [] => .error ⟨"Expected closing quote", []⟩
  | '"' :: rest => .ok ([], rest)
  | '\\' :: rest =>
    match rest with
    | esc :: rest2 =>
      let mapped : List Char :=
        if esc = 'n' then '\n' :: []
        else if esc = 't' then '\t' :: []
        else if esc = 'r' then '\r' :: []
        else if esc = '"' then '"' :: []
        else if esc = '\\' then '\\' :: []
        else '\\' :: esc :: []
      (fun (p : List Char × List Char) => (mapped ++ p.1, p.2)) <$> quotedBody rest2
    | [] => .error ⟨"Expected closing quote", []⟩
  | c :: rest =>
    (fun (p : List Char × List Char) => (c :: p.1, p.2)) <$> quotedBody rest

def parseQuotedL (l : List Char) : Except ParseErr (String × List Char) :=
  match l with
  | '"' :: rest => (fun (p : List Char × List Char) => (String.mk p.1, p.2)) <$> quotedBody rest
  | _ => .error ⟨"Expected opening quote", l⟩

/-- Delimiters ending an unquoted token. -/
def isUnquotedStop (c : Char) : Bool :=
  c = ',' || c = ';' || c = ']' || c = '\x7d' || c = '>'
    || c = ' ' || c = '\t' || c = '\r' || c = '\n'

/-- `parseUnquoted`: raw token to the next delimiter, then inference. -/
def parseUnquotedL (l : List Char) : Except ParseErr (ValueT × List Char) :=
  let t := l.takeWhile (fun c => !isUnquotedStop c)
  if t = [] then .error ⟨"Expected a value", l⟩
  else .ok (inferType (String.mk t), l.dropWhile (fun c => !isUnquotedStop c))

/-- The scanning loop of `extractBalanced`: collect characters, tracking
the nesting depth of the bracket pair, stopping at the zero-depth close
(left at the head of the remainder) or at end of input. -/
def ebLoop (oc cc : Char) : ℕ → List Char → List Char × List Char
  | 0, l => ([], l)
  | _ + 1, [] => ([], [])
  | d + 1, c :: l =>
    if c = oc then
      let (a, r) := ebLoop oc cc (d + 2) l
      (c :: a, r)
    else if c = cc then
      if d = 0 then ([], c :: l)
      else
        let (a, r) := ebLoop oc cc d l
        (c :: a, r)
    else
      let (a, r) := ebLoop oc cc (d + 1) l
      (c :: a, r)

/-- `extractBalanced(open, close)`: expect the opener, scan at depth 1,
expect the closer. -/
def extractBalanced (oc cc : Char) (l : List Char) :
    Except ParseErr (List Char × List Char) := do
  let l1 ← expectC oc l
  let (content, r) := ebLoop oc cc 1 l1
  let r2 ← expectC cc r
  .ok (content, r2)

-- ---------------------------------------------------------------------------
-- The recursive grammar (`parseValue` … `parseCaps` in `_parser.ts`)
-- ---------------------------------------------------------------------------

def kwANY : List Char := 'A' :: 'N' :: 'Y' :: []
def kwEMPTY : List Char := 'E' :: 'M' :: 'P' :: 'T' :: 'Y' :: []
def kwNONE : List Char := 'N' :: 'O' :: 'N' :: 'E' :: []

mutual

/-- `parseValue`: dispatch on the next character. -/
def parseValueF : ℕ → List Char → Except ParseErr (ValueT × List Char)
  | 0, l => .error ⟨"fuel", l⟩
  | f + 1, l =>
    match l with
    | '(' :: _ => parseTypedValueF f l
    | '[' :: _ => parseRangeF f l
    | '\x7b' :: _ => parseListF f l
    | '<' :: _ => parseGstArrayF f l
    | '"' :: _ => (fun (p : String × List Char) => (ValueT.str p.1, p.2)) <$> parseQuotedL l
    | _ => parseUnquotedL l

/-- `parseTypedValue`: `( typeName )` then either the special
`(GstCaps)[...]` bracket form or a raw value passed to the coercion
table. -/
def parseTypedValueF : ℕ → List Char → Except ParseErr (ValueT × List Char)
  | 0, l => .error ⟨"fuel", l⟩
  | f + 1, l => do
    let l1 ← expectC '(' l
    let (tn, l3) := parseTypeNameL (skipWSL l1)
    if tn = "" then .error ⟨"Expected type name inside parens", l3⟩
    else do
      let l5 ← expectC ')' (skipWSL l3)
      let l6 := skipWSL l5
      let lower := asciiLower tn
      if (lower = "gstcaps" || lower = "caps") && headIs l6 '[' then do
        let (inner, l7) ← extractBalanced '[' ']' l6
        match parseCapsInnerF f (String.mk inner) with
        | some c => .ok (.caps c, l7)
        | none => .error ⟨"Failed to parse caps", l7⟩
      else do
        let (raw, l7) ←
          match l6 with
          | '"' :: _ => (fun (p : String × List Char) => (ValueT.str p.1, p.2)) <$> parseQuotedL l6
          | '[' :: _ => parseRangeF f l6
          | '\x7b' :: _ => parseListF f l6
          | '<' :: _ => parseGstArrayF f l6
          | _ => parseUnquotedL l6
        let v ← interpretTypedF f tn raw
        .ok (v, l7)

/-- `parseRange`: `[ min , max [, step] ]`. -/
def parseRangeF : ℕ → List Char → Except ParseErr (ValueT × List Char)
  | 0, l => .error ⟨"fuel", l⟩
  | f + 1, l => do
    let l1 ← expectC '[' l
    let (mn, l2) ← parseValueF f (skipWSL l1)
    let l4 ← expectC ',' (skipWSL l2)
    let (mx, l5) ← parseValueF f (skipWSL l4)
    let l6 := skipWSL l5
    match l6 with
    | ',' :: r => do
      let (st, l7) ← parseValueF f (skipWSL r)
      let l9 ← expectC ']' (skipWSL l7)
      .ok (.range mn mx (some st), l9)
    | _ => do
      let l9 ← expectC ']' l6
      .ok (.range mn mx none, l9)

/-- `parseList`: `{ v1, v2, … }` with tolerated trailing comma. -/
def parseListF : ℕ → List Char → Except ParseErr (ValueT × List Char)
  | 0, l => .error ⟨"fuel", l⟩
  | f + 1, l => do
    let l1 ← expectC '\x7b' l
    let (items, l2) ← seqItemsF f '\x7d' (skipWSL l1) []
    let l3 ← expectC '\x7d' l2
    .ok (.list items, l3)

/-- `parseGstArray`: `< v1, v2, … >` with tolerated trailing comma. -/
def parseGstArrayF : ℕ → List Char → Except ParseErr (ValueT × List Char)
  | 0, l => .error ⟨"fuel", l⟩
  | f + 1, l => do
    let l1 ← expectC '<' l
    let (items, l2) ← seqItemsF f '>' (skipWSL l1) []
    let l3 ← expectC '>' l2
    .ok (.array items, l3)

/-- The shared item loop of `parseList` / `parseGstArray`. -/
def seqItemsF : ℕ → Char → List Char → List ValueT →
    Except ParseErr (List ValueT × List Char)
  | 0, _, l, _ => .error ⟨"fuel", l⟩
  | f + 1, term, l, acc =>
    match l with
    | [] => .ok (acc, [])
    | c :: _ =>
      if c = term then .ok (acc, l)
      else do
        let (v, l1) ← parseValueF f l
        let l2 := skipWSL l1
        let l3 := match l2 with
          | ',' :: r => skipWSL r
          | _ => l2
        seqItemsF f term l3 (acc ++ [v])

/-- `parseField`: `fieldName = value`. -/
def parseFieldF : ℕ → List Char → Except ParseErr ((String × ValueT) × List Char)
  | 0, l => .error ⟨"fuel", l⟩
  | f + 1, l => do
    let (fn, l1) ← parseFieldNameL l
    let l3 ← expectC '=' (skipWSL l1)
    let (v, l4) ← parseValueF f (skipWSL l3)
    .ok ((fn, v), l4)

/-- The field loop of `parseStructure`: stop consuming a `;`, stop before
any character other than `,`, tolerate a trailing comma, otherwise read a
field and insert it with last-write-wins. -/
def structFieldsF : ℕ → List Char → List (String × ValueT) →
    Except ParseErr (List (String × ValueT) × List Char)
  | 0, l, _ => .error ⟨"fuel", l⟩
  | f + 1, l, fields =>
    match l with
    | [] => .ok (fields, [])
    | _ :: _ =>
      match skipWSL l with
      | ';' :: rest => .ok (fields, rest)
      | ',' :: rest =>
        (match skipWSL rest with
         | [] => .ok (fields, [])
         | ';' :: rest2 => .ok (fields, rest2)
         | l2 => do
            let (fv, l3) ← parseFieldF f l2
            structFieldsF f l3 (mapSet fields fv.1 fv.2))
      | l1 => .ok (fields, l1)

/-- `parseStructure`: whitespace, name, then the field loop. -/
def parseStructureF : ℕ → List Char → Except ParseErr (StructureT × List Char)
  | 0, l => .error ⟨"fuel", l⟩
  | f + 1, l => do
    let (name, l1) ← parseNameL (skipWSL l)
    let (fields, l2) ← structFieldsF f l1 []
    .ok (.mk name fields, l2)

/-- The feature loop of `parseCaps`: feature names until `)`, empty
scans skipped, commas consumed; whitespace skipped after the close. -/
def capsFeatsF : ℕ → List Char → List String → Except ParseErr (List String × List Char)
  | 0, l, _ => .error ⟨"fuel", l⟩
  | f + 1, l, acc =>
    match l with
    | [] => .error ⟨"Expected close paren", []⟩
    | ')' :: rest => .ok (acc, skipWSL rest)
    | _ :: _ =>
      let feat := String.mk (l.takeWhile isFeatureChar)
      let l1 := l.dropWhile isFeatureChar
      let acc2 := if feat = "" then acc else acc ++ [feat]
      let l3 := match skipWSL l1 with
        | ',' :: r => skipWSL r
        | l2 => l2
      capsFeatsF f l3 acc2

/-- The field loop of one caps entry: like the structure field loop but a
terminating `;` is left unconsumed (the entry loop consumes it). -/
def capsFieldsF : ℕ → List Char → List (String × ValueT) →
    Except ParseErr (List (String × ValueT) × List Char)
  | 0, l, _ => .error ⟨"fuel", l⟩
  | f + 1, l, fields =>
    match l with
    | [] => .ok (fields, [])
    | _ :: _ =>
      match skipWSL l with
      | [] => .ok (fields, [])
      | ';' :: rest => .ok (fields, ';' :: rest)
      | ',' :: rest =>
        (match skipWSL rest with
         | [] => .ok (fields, [])
         | ';' :: rest2 => .ok (fields, ';' :: rest2)
         | l2 => do
            let (fv, l3) ← parseFieldF f l2
            capsFieldsF f l3 (mapSet fields fv.1 fv.2))
      | l1 => .ok (fields, l1)

/-- The entry loop of `parseCaps`: name, optional `(features)`, fields,
then continue after a `;`. -/
def capsEntriesF : ℕ → List Char → List CapsEntryT → Except ParseErr (CapsT × List Char)
  | 0, l, _ => .error ⟨"fuel", l⟩
  | f + 1, l, entries =>
    match l with
    | [] => .ok (.structures entries, [])
    | _ :: _ =>
      match skipWSL l with
      | [] => .ok (.structures entries, [])
      | l1 => do
        let (name, l2) ← parseNameL l1
        let (features, l4) ←
          match skipWSL l2 with
          | '(' :: rest => capsFeatsF f (skipWSL rest) []
          | l3 => .ok ([], l3)
        let (fields, l5) ← capsFieldsF f l4 []
        let entries2 := entries ++ [CapsEntryT.mk (.mk name fields) features]
        match skipWSL l5 with
        | ';' :: rest => capsEntriesF f rest entries2
        | l6 => .ok (.structures entries2, l6)

/-- `parseCaps`: whitespace, the `ANY` / `EMPTY` / `NONE` keyword tests
(`tryConsume`, i.e. prefix tests), else the entry loop. -/
def parseCapsF : ℕ → List Char → Except ParseErr (CapsT × List Char)
  | 0, l => .error ⟨"fuel", l⟩
  | f + 1, l =>
    let l1 := skipWSL l
    if startsWithL kwANY l1 then .ok (.any, l1.drop 3)
    else if startsWithL kwEMPTY l1 then .ok (.empty, l1.drop 5)
    else if startsWithL kwNONE l1 then .ok (.empty, l1.drop 4)
    else capsEntriesF f l1 []

/-- `interpretTyped`: the case-insensitive coercion table. -/
def interpretTypedF : ℕ → String → ValueT → Except ParseErr ValueT
  | 0, _, _ => .error ⟨"fuel", []⟩
  | f + 1, tn, raw =>
    let n := asciiLower tn
    if intAliases.contains n then .ok (coerceInt raw)
    else if doubleAliases.contains n then .ok (coerceDouble raw)
    else if boolAliases.contains n then .ok (coerceBool raw)
    else if stringAliases.contains n then .ok (coerceString raw)
    else if bitmaskAliases.contains n then coerceBitmask raw
    else if fractionAliases.contains n then .ok raw
    else if capsAliases.contains n then .ok (coerceCapsF f raw)
    else if n = "gststructure" then .ok (coerceStructureF f raw)
    else .ok (.typed tn raw)

/-- `coerceCaps`: a string payload is reparsed as caps; failure keeps the
raw value. -/
def coerceCapsF : ℕ → ValueT → ValueT
  | 0, v => v
  | f + 1, v =>
    match v with
    | .caps c => .caps c
    | .str s =>
      match parseCapsInnerF f s with
      | some c => .caps c
      | none => .str s
    | _ => v

/-- `coerceStructure`: a string payload is reparsed as a structure;
failure keeps the raw value. -/
def coerceStructureF : ℕ → ValueT → ValueT
  | 0, v => v
  | f + 1, v =>
    match v with
    | .structure st => .structure st
    | .str s =>
      match parseStructureInnerF f s with
      | some st => .structure st
      | none => .str s
    | _ => v

/-- `parseCapsInner`: `try { new Parser(s).parseCaps() } catch { null }`. -/
def parseCapsInnerF : ℕ → String → Option CapsT
  | 0, _ => none
  | f + 1, s =>
    match parseCapsF f s.data with
    | .ok (c, _) => some c
    | .error _ => none

/-- `parseStructureInner`: `try { new Parser(s).parseStructure() } catch { null }`. -/
def parseStructureInnerF : ℕ → String → Option StructureT
  | 0, _ => none
  | f + 1, s =>
    match parseStructureF f s.data with
    | .ok (st, _) => some st
    | .error _ => none

end

-- ---------------------------------------------------------------------------
-- Entry points (`parser.ts`, `structure.ts`)
-- ---------------------------------------------------------------------------

/-- `String.prototype.trim` (ASCII whitespace). -/
def jsTrim (s : String) : String :=
  String.mk ((s.data.dropWhile jsWS).reverse.dropWhile jsWS |>.reverse)

/-- Fuel that dominates the recursion depth of every evaluation below
(each unit of call depth consumes input, so linear fuel suffices). -/
def entryFuel (s : String) : ℕ := 4 * s.data.length + 64

/-- `parseStructureOrThrow` = `GstStructure.fromString`:
`new Parser(s.trim()).parseStructure()`; trailing input is discarded. -/
def parseStructureOrThrowE (s : String) : Except ParseErr StructureT :=
  match parseStructureF (entryFuel (jsTrim s)) (jsTrim s).data with
  | .ok (st, _) => .ok st
  | .error e => .error e

/-- `parseStructure`: the `!s || !s.trim()` guard, then the throwing form
inside `try/catch`. -/
def parseStructureE (s : String) : Option StructureT :=
  if (jsTrim s).data = [] then none
  else
    match parseStructureOrThrowE s with
    | .ok st => some st
    | .error _ => none

/-- `parseCapsOrThrow`: `new Parser(s.trim()).parseCaps()`. -/
def parseCapsOrThrowE (s : String) : Except ParseErr CapsT :=
  match parseCapsF (entryFuel (jsTrim s)) (jsTrim s).data with
  | .ok (c, _) => .ok c
  | .error e => .error e

/-- `parseCaps`: the `!s || !s.trim()` guard, then the throwing form
inside `try/catch`. -/
def parseCapsE (s : String) : Option CapsT :=
  if (jsTrim s).data = [] then none
  else
    match parseCapsOrThrowE s with
    | .ok c => some c
    | .error _ => none

-- ---------------------------------------------------------------------------
-- Helper definitions for the statements below
-- ---------------------------------------------------------------------------

/-- The keys of a field map, in insertion order. -/
def keysOf (m : List (String × ValueT)) : List String := m.map Prod.fst

/-- Kinds for which the coercion table lists no conversion rule. -/
def isContainerKind : ValueT → Bool
  | .list _ => true
  | .array _ => true
  | .range _ _ _ => true
  | .flags _ => true
  | _ => false

/-- Every (lower-cased) type alias the coercion table recognizes. -/
def recognizedAliases : List String :=
  intAliases ++ doubleAliases ++ boolAliases ++ stringAliases
    ++ bitmaskAliases ++ fractionAliases ++ capsAliases ++ ["gststructure"]

/-- Balanced-nesting condition for a bracket pair, scanned with a depth
counter: an opener increments, a closer decrements (requiring positive
depth), and the scan must end at depth zero.  A list satisfying
`nestOK oc cc 0` is exactly a body whose `oc`/`cc` brackets are balanced,
with arbitrary nesting. -/
def nestOK (oc cc : Char) (d : ℕ) : List Char → Bool
  | [] => d = 0
  | c :: l =>
    if c = oc then nestOK oc cc (d + 1) l
    else if c = cc then (d ≠ 0) && nestOK oc cc (d - 1) l
    else nestOK oc cc d l

lemma startsWithL_append (p l : List Char) : startsWithL p (p ++ l) = true := by
  induction p with
  | nil => rfl
  | cons c cs ih => simp [startsWithL, ih]

-- ---------------------------------------------------------------------------
-- Claim theorems
-- ---------------------------------------------------------------------------

/-- C1: evaluation of the round-trip chain at the failing input
`"a, b=(foo)3"`.  The first parse yields the Typed value
`(foo, Int 3)`; the serializer prints it as `(foo)(int)3`; re-parsing
that output succeeds but yields `(foo, String "(int)3")` for field `b`,
because `parseTypedValue`'s raw-value dispatch has no case for `(`, so
the inner `(int)3` is read as an unquoted string token.  The re-parsed
field value thus differs in kind of its inner value from the original,
contradicting the round-trip property. -/
theorem roundtrip_typed_value_failure :
    parseStructureE "a, b=(foo)3"
        = some (.mk "a" (("b", ValueT.typed "foo" (.int (jsn 3))) :: []))
    ∧ structureToString (.mk "a" (("b", ValueT.typed "foo" (.int (jsn 3))) :: []))
        = "a, b=(foo)(int)3"
    ∧ parseStructureE "a, b=(foo)(int)3"
        = some (.mk "a" (("b", ValueT.typed "foo" (.str "(int)3")) :: [])) :=
  ⟨rfl, rfl, rfl⟩

/-- C2: the particulars of the inference cascade, matching the claim:
`"30/1"` is a fraction (not two integers), `"30"` an int, `"3.0"` a
double, `"a+b"` flags, a single identifier `"a"` a string, the boolean
keywords (in any letter case) booleans, and `"0xFF"` the int 255. -/
theorem inferType_cascade_particulars :
    inferType "30/1" = .fraction (jsn 30) (jsn 1)
    ∧ inferType "30" = .int (jsn 30)
    ∧ inferType "3.0" = .double (jsn 3)
    ∧ inferType "a+b" = .flags (("a" : String) :: ("b" : String) :: [])
    ∧ inferType "a" = .str "a"
    ∧ inferType "true" = .boolean true ∧ inferType "TRUE" = .boolean true
    ∧ inferType "yes" = .boolean true ∧ inferType "Yes" = .boolean true
    ∧ inferType "t" = .boolean true ∧ inferType "T" = .boolean true
    ∧ inferType "tRuE" = .boolean true
    ∧ inferType "0xFF" = .int (jsn 255) :=
  ⟨rfl, rfl, rfl, rfl, rfl, rfl, rfl, rfl, rfl, rfl, rfl, rfl, rfl⟩

/-- C3 counterexample: a String value is serialized as a quoted literal,
not with a `(typeName)` prefix — refuting the claim's inclusion of
String among the prefixed kinds. -/
theorem valueToString_string_unprefixed :
    valueToString (.str "I420") = "\"I420\""
    ∧ startsWithL ('(' :: []) (valueToString (.str "I420")).data = false :=
  ⟨rfl, rfl⟩

lemma strData_append (a b : String) : (a ++ b).data = a.data ++ b.data := rfl

/-- C3 amended: `valueToString` emits the scalar kinds Int, Double,
Boolean, Fraction, and Bitmask with an explicit parenthesized type-name
prefix; String is emitted as a quoted escaped literal without a prefix,
and Flags as the bare `+`-join of its members without a prefix. -/
theorem valueToString_prefix_policy :
    (∀ j, startsWithL ("(int)".data) (valueToString (.int j)).data = true)
    ∧ (∀ j, startsWithL ("(double)".data) (valueToString (.double j)).data = true)
    ∧ (∀ b, startsWithL ("(boolean)".data) (valueToString (.boolean b)).data = true)
    ∧ (∀ n d, startsWithL ("(fraction)".data) (valueToString (.fraction n d)).data = true)
    ∧ (∀ i, startsWithL ("(bitmask)".data) (valueToString (.bitmask i)).data = true)
    ∧ (∀ s, valueToString (.str s) = "\"" ++ escapeString s ++ "\""
        ∧ startsWithL ("(".data) (valueToString (.str s)).data = false)
    ∧ (∀ fs, valueToString (.flags fs) = String.intercalate "+" fs) := by
  refine ⟨?_, ?_, ?_, ?_, ?_, ?_, ?_⟩
  · intro j
    show startsWithL ("(int)".data) (("(int)" ++ jsNumToString j)).data = true
    rw [strData_append]
    exact startsWithL_append _ _
  · intro j
    show startsWithL ("(double)".data)
      (("(double)" ++ _ : String)).data = true
    rw [strData_append]
    exact startsWithL_append _ _
  · intro b
    show startsWithL ("(boolean)".data)
      (("(boolean)" ++ (if b then "true" else "false"))).data = true
    rw [strData_append]
    exact startsWithL_append _ _
  · intro n d
    show startsWithL ("(fraction)".data)
      (("(fraction)" ++ jsNumToString n ++ "/" ++ jsNumToString d)).data = true
    simp only [strData_append, List.append_assoc]
    exact startsWithL_append _ _
  · intro i
    show startsWithL ("(bitmask)".data)
      (("(bitmask)0x" ++ bigIntHex i)).data = true
    have h : ("(bitmask)0x" ++ bigIntHex i).data
        = "(bitmask)".data ++ ("0x" ++ bigIntHex i).data := rfl
    rw [h]
    exact startsWithL_append _ _
  · intro s
    refine ⟨rfl, ?_⟩
    show startsWithL ("(".data) (("\"" ++ escapeString s ++ "\"")).data = false
    simp only [strData_append, List.append_assoc]
    simp [startsWithL]
  · intro fs
    rfl

/-- C6: when an explicit-type coercion cannot produce its target kind —
a `(bitmask)` tag whose string payload `BigInt` rejects, or a
`(GstCaps)`/`(GstStructure)` tag whose string payload fails the nested
grammar — the original raw value is returned unchanged, no error is
raised, and the enclosing parse still succeeds (shown on concrete
enclosing inputs). -/
theorem coercion_failure_keeps_raw :
    (∀ s : String, jsBigInt s = none → coerceBitmask (.str s) = .ok (.str s))
    ∧ (∀ (f : ℕ) (s : String), parseCapsInnerF f s = none →
        coerceCapsF (f + 1) (.str s) = .str s)
    ∧ (∀ (f : ℕ) (s : String), parseStructureInnerF f s = none →
        coerceStructureF (f + 1) (.str s) = .str s)
    ∧ parseStructureOrThrowE "a, b=(bitmask)\"zz\""
        = .ok (.mk "a" (("b", ValueT.str "zz") :: []))
    ∧ parseStructureOrThrowE "a, b=(GstCaps)\"=bad\""
        = .ok (.mk "a" (("b", ValueT.str "=bad") :: []))
    ∧ parseStructureOrThrowE "a, b=(GstStructure)\"=bad\""
        = .ok (.mk "a" (("b", ValueT.str "=bad") :: [])) := by
  refine ⟨?_, ?_, ?_, rfl, rfl, rfl⟩
  · intro s h
    simp [coerceBitmask, h]
  · intro f s h
    simp [coerceCapsF, h]
  · intro f s h
    simp [coerceStructureF, h]

/-- C6 witness: the general fallback clauses applied at concrete failing
payloads. -/
theorem coercion_failure_keeps_raw_witness :
    coerceBitmask (.str "zz") = .ok (.str "zz")
    ∧ coerceCapsF 64 (.str "=bad") = .str "=bad"
    ∧ coerceStructureF 64 (.str "=bad") = .str "=bad" :=
  ⟨coercion_failure_keeps_raw.1 "zz" rfl,
   coercion_failure_keeps_raw.2.1 63 "=bad" rfl,
   coercion_failure_keeps_raw.2.2.1 63 "=bad" rfl⟩

/-- C9: the structure field loop returns successfully as soon as the next
non-whitespace character is neither `,` nor `;` (also at end of input),
leaving the rest of the input unconsumed; the throwing entry point then
discards that rest.  Concretely, `"name junk=1"` parses to a structure
named `"name"` with no fields, with `"junk=1"` left over and discarded. -/
theorem structure_parse_discards_trailing :
    (∀ (f : ℕ) (l : List Char) (fields : List (String × ValueT)),
        headIs (skipWSL l) ',' = false → headIs (skipWSL l) ';' = false →
        structFieldsF (f + 1) l fields = .ok (fields, skipWSL l))
    ∧ parseStructureF (entryFuel (jsTrim "name junk=1")) ("name junk=1".data)
        = .ok (.mk "name" [], "junk=1".data)
    ∧ parseStructureOrThrowE "name junk=1" = .ok (.mk "name" []) := by
  refine ⟨?_, rfl, rfl⟩
  intro f l fields h1 h2
  cases l with
  | nil => simp [structFieldsF, skipWSL]
  | cons c rest =>
    simp only [structFieldsF]
    split
    · rename_i heq
      rw [heq] at h2
      simp [headIs] at h2
    · rename_i heq
      rw [heq] at h1
      simp [headIs] at h1
    · rfl

/-- C9 witness: the loop-stop clause applied at the concrete junk
suffix. -/
theorem structure_parse_discards_trailing_witness :
    structFieldsF 1 (" junk=1".data) [] = .ok ([], "junk=1".data) :=
  structure_parse_discards_trailing.1 0 (" junk=1".data) [] rfl rfl

lemma coerceInt_container (v : ValueT) (hv : isContainerKind v = true) :
    coerceInt v = v := by
  cases v <;> simp_all [isContainerKind, coerceInt]

lemma coerceDouble_container (v : ValueT) (hv : isContainerKind v = true) :
    coerceDouble v = v := by
  cases v <;> simp_all [isContainerKind, coerceDouble]

lemma coerceBool_container (v : ValueT) (hv : isContainerKind v = true) :
    coerceBool v = v := by
  cases v <;> simp_all [isContainerKind, coerceBool]

lemma coerceString_container (v : ValueT) (hv : isContainerKind v = true) :
    coerceString v = v := by
  cases v <;> simp_all [isContainerKind, coerceString]

lemma coerceBitmask_container (v : ValueT) (hv : isContainerKind v = true) :
    coerceBitmask v = .ok v := by
  cases v <;> simp_all [isContainerKind, coerceBitmask]

lemma coerceCapsF_container (f : ℕ) (v : ValueT) (hv : isContainerKind v = true) :
    coerceCapsF f v = v := by
  cases f with
  | zero => simp [coerceCapsF]
  | succ f => cases v <;> simp_all [isContainerKind, coerceCapsF]

lemma coerceStructureF_container (f : ℕ) (v : ValueT) (hv : isContainerKind v = true) :
    coerceStructureF f v = v := by
  cases f with
  | zero => simp [coerceStructureF]
  | succ f => cases v <;> simp_all [isContainerKind, coerceStructureF]

/-- C10: the coercion dispatcher, applied with any recognized type alias
to a raw value of a kind for which its family lists no conversion rule
(List, Array, Range, Flags), returns the raw value completely unchanged —
not converted, not wrapped in a Typed value, and without error. -/
theorem interpretTyped_container_identity (f : ℕ) (tn : String) (v : ValueT)
    (halias : recognizedAliases.contains (asciiLower tn) = true)
    (hv : isContainerKind v = true) :
    interpretTypedF (f + 1) tn v = .ok v := by
  simp only [interpretTypedF]
  by_cases h1 : asciiLower tn ∈ intAliases
  · simp [h1, coerceInt_container v hv]
  · by_cases h2 : asciiLower tn ∈ doubleAliases
    · simp [h1, h2, coerceDouble_container v hv]
    · by_cases h3 : asciiLower tn ∈ boolAliases
      · simp [h1, h2, h3, coerceBool_container v hv]
      · by_cases h4 : asciiLower tn ∈ stringAliases
        · simp [h1, h2, h3, h4, coerceString_container v hv]
        · by_cases h5 : asciiLower tn ∈ bitmaskAliases
          · simp [h1, h2, h3, h4, h5, coerceBitmask_container v hv]
          · by_cases h6 : asciiLower tn ∈ fractionAliases
            · simp [h1, h2, h3, h4, h5, h6]
            · by_cases h7 : asciiLower tn ∈ capsAliases
              · simp [h1, h2, h3, h4, h5, h6, h7, coerceCapsF_container f v hv]
              · by_cases h8 : asciiLower tn = "gststructure"
                · rw [h8]
                  rw [if_neg (by decide), if_neg (by decide), if_neg (by decide),
                    if_neg (by decide), if_neg (by decide), if_neg (by decide),
                    if_neg (by decide), if_pos rfl]
                  simp [coerceStructureF_container f v hv]
                · exfalso
                  have hmem : asciiLower tn ∈ recognizedAliases := by
                    simpa using halias
                  simp only [recognizedAliases, List.mem_append,
                    List.mem_singleton] at hmem
                  tauto

/-- C10 witness: an `(int)` tag on a List value is the identity. -/
theorem interpretTyped_container_identity_witness :
    interpretTypedF 1 "int" (.list []) = .ok (.list []) :=
  interpretTyped_container_identity 0 "int" (.list []) rfl rfl

lemma mapSet_keys_nodup (m : List (String × ValueT)) (k : String) (v : ValueT)
    (h : (keysOf m).Nodup) : (keysOf (mapSet m k v)).Nodup := by
  unfold mapSet
  split
  · rename_i hany
    have hkeys : keysOf (m.map (fun p => if p.1 = k then (k, v) else p)) = keysOf m := by
      unfold keysOf
      rw [List.map_map]
      apply List.map_congr_left
      intro p _
      by_cases hpk : p.1 = k <;> simp [hpk]
    rw [hkeys]
    exact h
  · rename_i hany
    have hk : k ∉ keysOf m := by
      intro hmem
      obtain ⟨p, hpm, hpk⟩ := List.mem_map.mp hmem
      exact hany (List.any_eq_true.mpr ⟨p, hpm, by simp [hpk]⟩)
    unfold keysOf
    rw [List.map_append]
    simp only [List.map_cons, List.map_nil]
    rw [List.nodup_append]
    refine ⟨h, List.nodup_singleton k, ?_⟩
    intro a ha hak
    rw [List.mem_singleton.mp hak] at ha
    exact hk ha

lemma mapGet_mapSet (m : List (String × ValueT)) (k : String) (v : ValueT) :
    mapGet (mapSet m k v) k = some v := by
  induction m with
  | nil => simp [mapSet, mapGet]
  | cons p m' ih =>
    by_cases hpk : p.1 = k
    · have hany : ((p :: m').any fun q => decide (q.1 = k)) = true := by
        simp [List.any_cons, hpk]
      simp only [mapSet, hany, if_true, List.map_cons, if_pos hpk]
      unfold mapGet
      rw [List.find?_cons_of_pos]
      simp
    · by_cases hm : (m'.any fun q => decide (q.1 = k)) = true
      · have hany : ((p :: m').any fun q => decide (q.1 = k)) = true := by
          simp [List.any_cons, hm]
        simp only [mapSet, hany, if_true, List.map_cons, if_neg hpk]
        simp only [mapSet, hm, if_true] at ih
        unfold mapGet
        unfold mapGet at ih
        rw [List.find?_cons_of_neg]
        · exact ih
        · simp [hpk]
      · have hany : ((p :: m').any fun q => decide (q.1 = k)) = false := by
          simp only [List.any_cons, Bool.or_eq_false_iff]
          exact ⟨by simp [hpk], by simp only [Bool.not_eq_true] at hm; exact hm⟩
        simp only [mapSet, hany, Bool.false_eq_true, if_false, List.cons_append]
        simp only [mapSet, hm, Bool.false_eq_true, if_false] at ih
        unfold mapGet
        unfold mapGet at ih
        rw [List.find?_cons_of_neg]
        · exact ih
        · simp [hpk]

lemma except_bind_ok {α β : Type} {e : Except ParseErr α} {g : α → Except ParseErr β}
    {r : β} (h : (e >>= g) = .ok r) : ∃ a, e = .ok a ∧ g a = .ok r := by
  cases e with
  | error err => simp [bind, Except.bind] at h
  | ok a => exact ⟨a, rfl, by simpa [bind, Except.bind] using h⟩

lemma structFieldsF_nodup :
    ∀ (f : ℕ) (l : List Char) (fields res1 : List (String × ValueT)) (res2 : List Char),
      structFieldsF f l fields = .ok (res1, res2) →
      (keysOf fields).Nodup → (keysOf res1).Nodup := by
  intro f
  induction f with
  | zero =>
    intro l fields res1 res2 h hnd
    simp [structFieldsF] at h
  | succ f ih =>
    intro l fields res1 res2 h hnd
    cases l with
    | nil =>
      simp only [structFieldsF, Except.ok.injEq, Prod.mk.injEq] at h
      rw [← h.1]
      exact hnd
    | cons c rest =>
      simp only [structFieldsF] at h
      split at h
      · simp only [Except.ok.injEq, Prod.mk.injEq] at h
        rw [← h.1]
        exact hnd
      · split at h
        · simp only [Except.ok.injEq, Prod.mk.injEq] at h
          rw [← h.1]
          exact hnd
        · simp only [Except.ok.injEq, Prod.mk.injEq] at h
          rw [← h.1]
          exact hnd
        · obtain ⟨⟨fv, l3⟩, hpf, h2⟩ := except_bind_ok h
          exact ih l3 (mapSet fields fv.1 fv.2) res1 res2 h2
            (mapSet_keys_nodup fields fv.1 fv.2 hnd)
      · simp only [Except.ok.injEq, Prod.mk.injEq] at h
        rw [← h.1]
        exact hnd

lemma parseStructureF_nodup (f : ℕ) (l : List Char) (st : StructureT) (rest : List Char)
    (h : parseStructureF f l = .ok (st, rest)) : (keysOf st.fields).Nodup := by
  cases f with
  | zero => simp [parseStructureF] at h
  | succ f =>
    simp only [parseStructureF] at h
    obtain ⟨⟨name, l1⟩, hname, h2⟩ := except_bind_ok h
    obtain ⟨⟨fields, l2⟩, hloop, h3⟩ := except_bind_ok h2
    simp only [Except.ok.injEq, Prod.mk.injEq] at h3
    rw [← h3.1]
    simp only [StructureT.fields]
    exact structFieldsF_nodup f l1 [] fields l2 hloop (by simp [keysOf])

/-- C8: a successfully parsed structure's field map has no duplicate
keys; the map update used by the field loop is last-write-wins (reading
the key just written returns the just-written value); and a repeated
field name replaces the earlier value without an error, as the concrete
input `"a, b=1, b=2"` shows. -/
theorem parse_structure_keys_nodup :
    (∀ s st, parseStructureOrThrowE s = .ok st → (keysOf st.fields).Nodup)
    ∧ (∀ m k v, mapGet (mapSet m k v) k = some v)
    ∧ parseStructureOrThrowE "a, b=1, b=2"
        = .ok (.mk "a" (("b", ValueT.int (jsn 2)) :: [])) := by
  refine ⟨?_, mapGet_mapSet, rfl⟩
  intro s st h
  unfold parseStructureOrThrowE at h
  cases hp : parseStructureF (entryFuel (jsTrim s)) (jsTrim s).data with
  | error e => rw [hp] at h; simp at h
  | ok p =>
    rw [hp] at h
    obtain ⟨st', rest⟩ := p
    simp only [Except.ok.injEq] at h
    rw [← h]
    exact parseStructureF_nodup _ _ st' rest hp

/-- C8 witness: the no-duplicate-keys clause applied at the concrete
duplicated-field input. -/
theorem parse_structure_keys_nodup_witness :
    (keysOf (StructureT.mk "a" (("b", ValueT.int (jsn 2)) :: [])).fields).Nodup :=
  parse_structure_keys_nodup.1 "a, b=1, b=2" _ rfl

lemma ebLoop_nest (oc cc : Char) (hne : oc ≠ cc) :
    ∀ (content : List Char) (d : ℕ) (rest : List Char),
      nestOK oc cc d content = true →
      ebLoop oc cc (d + 1) (content ++ cc :: rest) = (content, cc :: rest) := by
  intro content
  induction content with
  | nil =>
    intro d rest hb
    simp only [nestOK, decide_eq_true_eq] at hb
    subst hb
    simp [ebLoop, Ne.symm hne]
  | cons c content' ih =>
    intro d rest hb
    simp only [nestOK] at hb
    by_cases hco : c = oc
    · rw [if_pos hco] at hb
      subst hco
      have h2 : ebLoop c cc (d + 2) (content' ++ cc :: rest) = (content', cc :: rest) :=
        ih (d + 1) rest hb
      simp [ebLoop, h2]
    · rw [if_neg hco] at hb
      by_cases hcc : c = cc
      · rw [if_pos hcc] at hb
        subst hcc
        rw [Bool.and_eq_true] at hb
        obtain ⟨hd0, hb2⟩ := hb
        simp only [ne_eq, decide_eq_true_eq] at hd0
        obtain ⟨d2, rfl⟩ : ∃ d2, d = d2 + 1 := ⟨d - 1, by omega⟩
        have h2 : ebLoop oc c (d2 + 1) (content' ++ c :: rest) = (content', c :: rest) :=
          ih d2 rest (by simpa using hb2)
        simp [ebLoop, hco, h2]
      · rw [if_neg hcc] at hb
        have h2 : ebLoop oc cc (d + 1) (content' ++ cc :: rest) = (content', cc :: rest) :=
          ih d rest hb
        simp [ebLoop, hco, hcc, h2]

lemma extractBalanced_ok (content rest : List Char)
    (hbal : nestOK '[' ']' 0 content = true) :
    extractBalanced '[' ']' ('[' :: (content ++ ']' :: rest)) = .ok (content, rest) := by
  have h1 : ebLoop '[' ']' 1 (content ++ ']' :: rest) = (content, ']' :: rest) :=
    ebLoop_nest '[' ']' (by decide) content 0 rest hbal
  simp [extractBalanced, expectC, bind, Except.bind, h1]

/-- C7: for the inline-caps form `(GstCaps)[ ... ]` the extractor scans
with a depth counter over the same bracket characters, so any body whose
inner `[`/`]` pairs are balanced (`nestOK`, nesting allowed) is extracted
whole, up to the matching zero-depth close; the extracted substring is
parsed as a full Caps grammar instance, a success becomes the nested Caps
value, and an inner parse failure makes the enclosing parse raise. -/
theorem extractBalanced_matching_close (f : ℕ) (content rest : List Char)
    (hbal : nestOK '[' ']' 0 content = true) :
    extractBalanced '[' ']' ('[' :: (content ++ ']' :: rest)) = .ok (content, rest)
    ∧ (∀ cp, parseCapsInnerF f (String.mk content) = some cp →
        parseTypedValueF (f + 1)
            ('(' :: 'G' :: 's' :: 't' :: 'C' :: 'a' :: 'p' :: 's' :: ')'
              :: '[' :: (content ++ ']' :: rest))
          = .ok (.caps cp, rest))
    ∧ (parseCapsInnerF f (String.mk content) = none →
        errB (parseTypedValueF (f + 1)
            ('(' :: 'G' :: 's' :: 't' :: 'C' :: 'a' :: 'p' :: 's' :: ')'
              :: '[' :: (content ++ ']' :: rest))) = true) := by
  have e1 : parseTypedValueF (f + 1)
      ('(' :: 'G' :: 's' :: 't' :: 'C' :: 'a' :: 'p' :: 's' :: ')'
        :: '[' :: (content ++ ']' :: rest))
      = extractBalanced '[' ']' ('[' :: (content ++ ']' :: rest)) >>=
          (fun p : List Char × List Char =>
            match parseCapsInnerF f (String.mk p.1) with
            | some c => Except.ok (ValueT.caps c, p.2)
            | none => Except.error ⟨"Failed to parse caps", p.2⟩) := rfl
  refine ⟨extractBalanced_ok content rest hbal, ?_, ?_⟩
  · intro cp hcp
    rw [e1, extractBalanced_ok content rest hbal]
    simp [bind, Except.bind, hcp]
  · intro hcp
    rw [e1, extractBalanced_ok content rest hbal]
    simp [bind, Except.bind, hcp, errB]

/-- C7 witness: the spec's bracket-balance example, with the inner parse
succeeding, and an unbalanced-free body extracted exactly. -/
theorem extractBalanced_matching_close_witness :
    parseTypedValueF 201
        ('(' :: 'G' :: 's' :: 't' :: 'C' :: 'a' :: 'p' :: 's' :: ')'
          :: '[' :: (("video/x-raw, format=I420".data) ++ ']' :: []))
      = .ok (.caps (.structures
          (CapsEntryT.mk (.mk "video/x-raw" (("format", ValueT.str "I420") :: [])) []
            :: [])), []) :=
  (extractBalanced_matching_close 200 ("video/x-raw, format=I420".data) [] rfl).2.1
    (.structures
      (CapsEntryT.mk (.mk "video/x-raw" (("format", ValueT.str "I420") :: [])) [] :: []))
    rfl

lemma capsEntriesF_structures :
    ∀ (f : ℕ) (l : List Char) (acc : List CapsEntryT) (c : CapsT) (r : List Char),
      capsEntriesF f l acc = .ok (c, r) → ∃ es, c = .structures es := by
  intro f
  induction f with
  | zero =>
    intro l acc c r h
    simp [capsEntriesF] at h
  | succ f ih =>
    intro l acc c r h
    cases l with
    | nil =>
      simp only [capsEntriesF, Except.ok.injEq, Prod.mk.injEq] at h
      exact ⟨acc, h.1.symm⟩
    | cons c0 rest =>
      simp only [capsEntriesF] at h
      split at h
      · simp only [Except.ok.injEq, Prod.mk.injEq] at h
        exact ⟨acc, h.1.symm⟩
      · obtain ⟨⟨name, l2⟩, hname, h2⟩ := except_bind_ok h
        split at h2
        · obtain ⟨⟨features, l4⟩, hfeat, h3⟩ := except_bind_ok h2
          obtain ⟨⟨fields, l5⟩, hfields, h4⟩ := except_bind_ok h3
          split at h4
          · exact ih _ _ _ _ h4
          · simp only [Except.ok.injEq, Prod.mk.injEq] at h4
            exact ⟨_, h4.1.symm⟩
        · obtain ⟨⟨features, l4⟩, hfeat, h3⟩ := except_bind_ok h2
          obtain ⟨⟨fields, l5⟩, hfields, h4⟩ := except_bind_ok h3
          split at h4
          · exact ih _ _ _ _ h4
          · simp only [Except.ok.injEq, Prod.mk.injEq] at h4
            exact ⟨_, h4.1.symm⟩

/-- C4 counterexample: `"ANYTHING"` does not equal the keyword `ANY`, yet
caps parsing returns the Any sentinel for it (`tryConsume` is a prefix
test), in both the throwing and the non-throwing entry point — the claim
says such an input must instead be parsed as a list of structures. -/
theorem parseCaps_sentinel_on_keyword_start :
    parseCapsOrThrowE "ANYTHING" = .ok CapsT.any
    ∧ parseCapsE "ANYTHING" = some CapsT.any
    ∧ jsTrim "ANYTHING" = "ANYTHING" :=
  ⟨rfl, rfl, rfl⟩

/-- C4 amended: caps parsing returns the Any sentinel exactly when the
remaining text after trimming and leading-whitespace skipping *starts
with* `ANY`; it returns the Empty sentinel exactly when that text does
not start with `ANY` but starts with `EMPTY` or `NONE`; when it starts
with none of the keywords, a successful parse always yields the
structure-list form. -/
theorem parseCaps_sentinel_iff_keyword (s : String) :
    (parseCapsOrThrowE s = .ok CapsT.any ↔
        startsWithL kwANY (skipWSL (jsTrim s).data) = true)
    ∧ (parseCapsOrThrowE s = .ok CapsT.empty ↔
        (startsWithL kwANY (skipWSL (jsTrim s).data) = false
          ∧ (startsWithL kwEMPTY (skipWSL (jsTrim s).data) = true
              ∨ startsWithL kwNONE (skipWSL (jsTrim s).data) = true)))
    ∧ (∀ c, startsWithL kwANY (skipWSL (jsTrim s).data) = false →
        startsWithL kwEMPTY (skipWSL (jsTrim s).data) = false →
        startsWithL kwNONE (skipWSL (jsTrim s).data) = false →
        parseCapsOrThrowE s = .ok c → ∃ es, c = CapsT.structures es) := by
  obtain ⟨f, hf⟩ : ∃ f, entryFuel (jsTrim s) = f + 1 :=
    ⟨4 * (jsTrim s).data.length + 63, by unfold entryFuel; omega⟩
  have hwrap : ∀ c : CapsT, parseCapsOrThrowE s = .ok c ↔
      (∃ r, parseCapsF (f + 1) (jsTrim s).data = .ok (c, r)) := by
    intro c
    unfold parseCapsOrThrowE
    rw [hf]
    cases hres : parseCapsF (f + 1) (jsTrim s).data with
    | ok p =>
      obtain ⟨c2, r⟩ := p
      simp
    | error e => simp
  have hstep : parseCapsF (f + 1) (jsTrim s).data =
      (if startsWithL kwANY (skipWSL (jsTrim s).data) then
        .ok (CapsT.any, (skipWSL (jsTrim s).data).drop 3)
      else if startsWithL kwEMPTY (skipWSL (jsTrim s).data) then
        .ok (CapsT.empty, (skipWSL (jsTrim s).data).drop 5)
      else if startsWithL kwNONE (skipWSL (jsTrim s).data) then
        .ok (CapsT.empty, (skipWSL (jsTrim s).data).drop 4)
      else capsEntriesF f (skipWSL (jsTrim s).data) []) := rfl
  by_cases hA : startsWithL kwANY (skipWSL (jsTrim s).data) = true
  · rw [hstep, if_pos hA] at hwrap
    refine ⟨⟨fun _ => hA, fun _ => (hwrap CapsT.any).mpr ⟨_, rfl⟩⟩, ?_, ?_⟩
    · constructor
      · intro hok
        obtain ⟨r, hr⟩ := (hwrap CapsT.empty).mp hok
        simp at hr
      · intro ⟨hA2, _⟩
        rw [hA] at hA2
        cases hA2
    · intro c hA2
      rw [hA] at hA2
      cases hA2
  · have hA2 : startsWithL kwANY (skipWSL (jsTrim s).data) = false :=
      Bool.not_eq_true _ ▸ eq_false_of_ne_true hA
    rw [hstep, if_neg hA] at hwrap
    by_cases hE : startsWithL kwEMPTY (skipWSL (jsTrim s).data) = true
    · rw [if_pos hE] at hwrap
      refine ⟨?_, ⟨fun _ => ⟨hA2, Or.inl hE⟩, fun _ => (hwrap CapsT.empty).mpr ⟨_, rfl⟩⟩, ?_⟩
      · constructor
        · intro hok
          obtain ⟨r, hr⟩ := (hwrap CapsT.any).mp hok
          simp at hr
        · intro hA3
          rw [hA2] at hA3
          cases hA3
      · intro c _ hE2
        rw [hE] at hE2
        cases hE2
    · have hE2 : startsWithL kwEMPTY (skipWSL (jsTrim s).data) = false :=
        Bool.not_eq_true _ ▸ eq_false_of_ne_true hE
      rw [if_neg hE] at hwrap
      by_cases hN : startsWithL kwNONE (skipWSL (jsTrim s).data) = true
      · rw [if_pos hN] at hwrap
        refine ⟨?_, ⟨fun _ => ⟨hA2, Or.inr hN⟩, fun _ => (hwrap CapsT.empty).mpr ⟨_, rfl⟩⟩, ?_⟩
        · constructor
          · intro hok
            obtain ⟨r, hr⟩ := (hwrap CapsT.any).mp hok
            simp at hr
          · intro hA3
            rw [hA2] at hA3
            cases hA3
        · intro c _ _ hN2
          rw [hN] at hN2
          cases hN2
      · have hN2 : startsWithL kwNONE (skipWSL (jsTrim s).data) = false :=
          Bool.not_eq_true _ ▸ eq_false_of_ne_true hN
        rw [if_neg hN] at hwrap
        refine ⟨?_, ?_, ?_⟩
        · constructor
          · intro hok
            obtain ⟨r, hr⟩ := (hwrap CapsT.any).mp hok
            obtain ⟨es, hes⟩ := capsEntriesF_structures f _ [] CapsT.any r hr
            cases hes
          · intro hA3
            rw [hA2] at hA3
            cases hA3
        · constructor
          · intro hok
            obtain ⟨r, hr⟩ := (hwrap CapsT.empty).mp hok
            obtain ⟨es, hes⟩ := capsEntriesF_structures f _ [] CapsT.empty r hr
            cases hes
          · intro ⟨_, hEN⟩
            cases hEN with
            | inl hE3 => rw [hE2] at hE3; cases hE3
            | inr hN3 => rw [hN2] at hN3; cases hN3
        · intro c _ _ _ hok
          obtain ⟨r, hr⟩ := (hwrap c).mp hok
          exact capsEntriesF_structures f _ [] c r hr

/-- C4 witness: both amended sentinel characterizations applied at
concrete inputs. -/
theorem parseCaps_sentinel_iff_keyword_witness :
    parseCapsOrThrowE "ANY" = .ok CapsT.any
    ∧ parseCapsOrThrowE "NONEMPTY" = .ok CapsT.empty :=
  ⟨(parseCaps_sentinel_iff_keyword "ANY").1.mpr rfl,
   (parseCaps_sentinel_iff_keyword "NONEMPTY").2.1.mpr ⟨rfl, Or.inr rfl⟩⟩

/-- C5 counterexample: on the empty input the throwing caps form does not
raise — it returns an empty structure list — while the non-throwing form
returns the absent sentinel (its `!s.trim()` guard, not a caught error). -/
theorem parseCapsOrThrow_accepts_empty :
    parseCapsOrThrowE "" = .ok (CapsT.structures [])
    ∧ parseCapsOrThrowE "   " = .ok (CapsT.structures [])
    ∧ errB (parseCapsOrThrowE "") = false
    ∧ parseCapsE "" = none :=
  ⟨rfl, rfl, rfl, rfl⟩

lemma parseStructureE_none_iff (s : String) :
    parseStructureE s = none ↔ errB (parseStructureOrThrowE s) = true := by
  by_cases h : (jsTrim s).data = []
  · simp only [parseStructureE, h, if_true]
    constructor
    · intro _
      simp only [parseStructureOrThrowE, entryFuel, h]
      rfl
    · intro _
      trivial
  · simp only [parseStructureE, h, if_false]
    cases hres : parseStructureOrThrowE s with
    | ok st => simp [hres, errB]
    | error e => simp [hres, errB]

lemma parseCapsE_none_iff (s : String) (h : (jsTrim s).data ≠ []) :
    parseCapsE s = none ↔ errB (parseCapsOrThrowE s) = true := by
  simp only [parseCapsE, h, if_false]
  cases hres : parseCapsOrThrowE s with
  | ok c => simp [hres, errB]
  | error e => simp [hres, errB]

/-- C5 amended: the four inputs `""`, `"   "`, `"=invalid"`,
`"foo, =bad"` are rejected by `parseStructure`, `parseStructureOrThrow`
and `parseCaps`; `parseCapsOrThrow` raises on `"=invalid"` and
`"foo, =bad"` but *accepts* `""` and `"   "`, returning an empty
structure list.  In general the non-throwing structure form returns the
absent sentinel exactly when the throwing form raises; for caps the same
equivalence holds for every input that is not empty or whitespace-only
(there the non-throwing guard returns absent while the throwing form
succeeds). -/
theorem rejection_matrix_amended :
    (parseStructureE "" = none ∧ parseStructureE "   " = none
      ∧ parseStructureE "=invalid" = none ∧ parseStructureE "foo, =bad" = none)
    ∧ (errB (parseStructureOrThrowE "") = true
      ∧ errB (parseStructureOrThrowE "   ") = true
      ∧ errB (parseStructureOrThrowE "=invalid") = true
      ∧ errB (parseStructureOrThrowE "foo, =bad") = true)
    ∧ (parseCapsE "" = none ∧ parseCapsE "   " = none
      ∧ parseCapsE "=invalid" = none ∧ parseCapsE "foo, =bad" = none)
    ∧ (errB (parseCapsOrThrowE "=invalid") = true
      ∧ errB (parseCapsOrThrowE "foo, =bad") = true)
    ∧ (parseCapsOrThrowE "" = .ok (CapsT.structures [])
      ∧ parseCapsOrThrowE "   " = .ok (CapsT.structures []))
    ∧ (∀ s, parseStructureE s = none ↔ errB (parseStructureOrThrowE s) = true)
    ∧ (∀ s, (jsTrim s).data ≠ [] →
        (parseCapsE s = none ↔ errB (parseCapsOrThrowE s) = true)) :=
  ⟨⟨rfl, rfl, rfl, rfl⟩, ⟨rfl, rfl, rfl, rfl⟩, ⟨rfl, rfl, rfl, rfl⟩,
   ⟨rfl, rfl⟩, ⟨rfl, rfl⟩, parseStructureE_none_iff, parseCapsE_none_iff⟩

/-- C5 witness: the two general equivalences applied at concrete
inputs not in the fixed matrix. -/
theorem rejection_matrix_amended_witness :
    parseStructureE "=x" = none ∧ parseCapsE "=x" = none :=
  ⟨(rejection_matrix_amended.2.2.2.2.2.1 "=x").mpr rfl,
   (rejection_matrix_amended.2.2.2.2.2.2 "=x" (by decide)).mpr rfl⟩
